import Mathlib

set_option linter.unusedVariables false

/-!
Shallow embedding of the mycarbon validator engine
(streamlit_app/mycarbon_validator: validator.py, workflow.py, styling.py).

Cells of a pandas frame are modelled by the closed variant type `Value`
(null/NaN, string, integer, native boolean); dataframes carry an explicit
column list, row index list and row-major data, plus the `missing_required`
attrs side channel used by the validator.  The external data-retrieval
capability (loader.py, out of the engine per the spec) is a parameter
returning `Except String DataFrame`, failing with the classified message
strings the engine pattern-matches on.
-/

/-- Closed variant set for loosely typed pandas cells: NaN/None, strings,
integers and native booleans. -/
inductive Value where
  | null
  | str (s : String)
  | int (n : Int)
  | bool (b : Bool)
deriving DecidableEq, Repr

/-- pd.isna on a cell. -/
def isna : Value → Bool
  | .null => true
  | _ => false

/-- Elementwise pandas comparison of a cell with the empty string
(`column_data == ''`): only a string cell can compare equal. -/
def eqEmptyStr : Value → Bool
  | .str s => s == ""
  | _ => false

/-- Elementwise pandas comparison of a cell with a Python string
(`validation_rules['Sheet'] == sheet`). -/
def valueEqStr (v : Value) (t : String) : Bool :=
  match v with
  | .str s => s == t
  | _ => false

/-- Python truthiness of a cell (`if is_required:`); note float NaN is truthy
in Python, so a null cell counts as truthy. -/
def pyTruthy : Value → Bool
  | .null => true
  | .str s => !(s == "")
  | .int n => !(n == 0)
  | .bool b => b

/-- Python str(...) of a cell value. -/
def pyStr : Value → String
  | .null => "nan"
  | .str s => s
  | .int n => toString n
  | .bool b => if b then "True" else "False"

/-- ASCII whitespace recognised by Python str.strip(). -/
def isSpaceC (c : Char) : Bool :=
  c == ' ' || c == '\t' || c == '\n' || c == '\r' || c == '\x0b' || c == '\x0c'

/-- Python str.strip(): drop leading and trailing whitespace. -/
def pyStrip (s : String) : String :=
  ⟨((s.data.dropWhile isSpaceC).reverse.dropWhile isSpaceC).reverse⟩

/-- Python str.lower() (ASCII letters). -/
def pyLower (s : String) : String :=
  ⟨s.data.map Char.toLower⟩

/-- Accumulate a decimal digit run into a natural number. -/
def digitsToNat (cs : List Char) : Nat :=
  cs.foldl (fun a c => a * 10 + (c.toNat - 48)) 0

/-- Decimal digit test. -/
def isDigitC (c : Char) : Bool := '0' ≤ c && c ≤ '9'

/-- Consume an optional leading sign, returning its value. -/
def readSign : List Char → Int × List Char
  | '+' :: t => (1, t)
  | '-' :: t => (-1, t)
  | t => (1, t)

/-- Exact value of a parsed decimal literal as an unnormalized fraction
numerator / denominator (denominator a positive power of ten). -/
structure PyNum where
  num : Int
  den : Nat
deriving DecidableEq, Repr

/-- Exact fractional value of a parsed decimal literal
sign * (intpart.fracpart) * 10 ^ (expsign * expdigits). -/
def mkRatVal (sgn : Int) (ip fp : List Char) (es : Int) (ed : List Char) : PyNum :=
  let m : Nat := digitsToNat ip * 10 ^ fp.length + digitsToNat fp
  let e : Int := es * (digitsToNat ed : Int)
  let shift : Int := e - (fp.length : Int)
  if 0 ≤ shift then ⟨sgn * (m : Int) * (10 : Int) ^ shift.toNat, 1⟩
  else ⟨sgn * (m : Int), (10 : Nat) ^ (-shift).toNat⟩

/-- Modelled numeric-string parsing for the engine's type checks, embedding
Python `float(str(value))`: optional surrounding whitespace, optional sign,
digits with an optional fractional part, and an optional exponent; returns
the exact value, or `none` when the string is not a number. -/
def parsePyFloat (s : String) : Option PyNum :=
  let cs0 := (pyStrip s).data
  let (sgn, cs) := readSign cs0
  let ip := cs.takeWhile isDigitC
  let rest1 := cs.dropWhile isDigitC
  let (fp, rest2) :=
    match rest1 with
    | '.' :: t => (t.takeWhile isDigitC, t.dropWhile isDigitC)
    | _ => (([] : List Char), rest1)
  if ip.isEmpty && fp.isEmpty then none
  else
    match rest2 with
    | [] => some (mkRatVal sgn ip fp 1 [])
    | c :: t =>
      if c == 'e' || c == 'E' then
        let (es, t2) := readSign t
        let ed := t2.takeWhile isDigitC
        let rest3 := t2.dropWhile isDigitC
        if ed.isEmpty then none
        else if rest3.isEmpty then some (mkRatVal sgn ip fp es ed)
        else none
      else none

/-- Python int(...) truncation toward zero of a parsed number. -/
def ratTrunc (q : PyNum) : Int := Int.tdiv q.num (q.den : Int)

/-- The year type check of validator.py: `int(float(str(value)))` must land in
[1900, 2100]; a parse failure is also a bad year. -/
def yearBad (s : String) : Bool :=
  match parsePyFloat s with
  | none => true
  | some q => if 1900 ≤ ratTrunc q ∧ ratTrunc q ≤ 2100 then false else true

/-- A pandas DataFrame: column names, row index labels, row-major cell data,
and the `attrs['missing_required']` side channel attached by the Column
Selector (empty for a freshly loaded frame). -/
structure DataFrame where
  cols : List String
  index : List Int
  rows : List (List Value)
  missingAttr : List String
deriving DecidableEq, Repr

/-- Value of a row at a named column (first matching column position). -/
def colVal (cols : List String) (row : List Value) (c : String) : Value :=
  match cols.findIdx? (fun c2 => c2 == c) with
  | some j => row.getD j Value.null
  | none => Value.null

/-- One column of a DataFrame, in row order (`data_sheet[column_name]`). -/
def getCol (df : DataFrame) (c : String) : List Value :=
  df.rows.map (fun row => colVal df.cols row c)

/-- The (row label, cell value) pairs of one column, as iterated by the
validator's per-cell loops. -/
def cellsOf (df : DataFrame) (c : String) : List (Int × Value) :=
  df.index.zip (getCol df c)

/-- One row of the Rule Catalog DataFrame (validations sheet "Columns"). -/
structure RuleRow where
  sheet : Value
  tableName : Value
  column : String
  datatype : Value
  required : Value
  allowBrokenRefs : Value
deriving DecidableEq, Repr

/-- The Rule Catalog frame; the flags record whether the `Sheet` and
`TableName` columns exist in the loaded frame (a pandas frame may lack
either, which `build_validation_plan` tests for). -/
structure RulesFrame where
  hasSheet : Bool
  hasTableName : Bool
  rows : List RuleRow
deriving DecidableEq, Repr

/-- `validation_rules[validation_rules['Sheet'] == sheet]`. -/
def rulesFor (rules : RulesFrame) (sheet : String) : List RuleRow :=
  rules.rows.filter (fun r => valueEqStr r.sheet sheet)

/-- `rules_for_sheet['Column'].tolist()` (duplicates preserved). -/
def declaredCols (rules : RulesFrame) (sheet : String) : List String :=
  (rulesFor rules sheet).map (fun r => r.column)

/-- Error Cell Key: (row label, column name); row -1 is the whole-column
pseudo-cell sentinel. -/
abbrev ErrKey := Int × String

/-- The Error Map, as a Python dict: association list with unique keys,
insertion ordered, last write wins in place. -/
abbrev ErrMap := List (ErrKey × String)

/-- Python dict assignment `error_cells[k] = v`: overwrite in place if the key
exists, else append. -/
def emSet (m : ErrMap) (k : ErrKey) (v : String) : ErrMap :=
  match m with
  | [] => [(k, v)]
  | (k2, v2) :: t => if k2 = k then (k2, v) :: t else (k2, v2) :: emSet t k v

/-- Python dict lookup on the Error Map. -/
def emLookup (m : ErrMap) (k : ErrKey) : Option String :=
  match m with
  | [] => none
  | (k2, v2) :: t => if k2 = k then some v2 else emLookup t k

/-- The unified blank indicator vocabulary of validator.py. -/
def blank_indicators : List String :=
  ["N/A", "n/a", "#N/A", "#n/a", "NA#", "na#", "#NA", "#na", "NULL", "null", "#ERROR", "#Error"]

/-- The fixed case-sensitive boolean vocabulary of validator.py. -/
def valid_boolean_values : List String :=
  ["true", "false", "y", "n", "yes", "no", "1", "0", "True", "False", "Y", "N", "Yes", "No", "TRUE", "FALSE", "YES", "NO"]

/-- The empty-required mask: `column_data.isna() | (column_data == '')`. -/
def isEmptyCell (v : Value) : Bool := isna v || eqEmptyStr v

/-- The blank-indicator test: non-null and stripped string form in the
indicator vocabulary. -/
def isBlankCell (v : Value) : Bool :=
  !isna v && blank_indicators.contains (pyStrip (pyStr v))

/-- The clean-subset mask used before type checks: non-null, not the empty
string, and not a blank indicator. -/
def cleanMask (v : Value) : Bool :=
  !isna v && !eqEmptyStr v && !(blank_indicators.contains (pyStrip (pyStr v)))

/-- The boolean type check on one clean cell: native booleans pass without
inspection, anything else must strip to the boolean vocabulary. -/
def boolBad : Value → Bool
  | .bool _ => false
  | v => !(valid_boolean_values.contains (pyStrip (pyStr v)))

/-- select_validation_columns of validator.py: project the frame onto the
declared columns that exist (in rule-declaration order, as `df[present]`
does), or onto `df.iloc[0:0]` when none exists, attaching the missing list. -/
def select_validation_columns (df : DataFrame) (rules : RulesFrame) (sheet : String) : DataFrame :=
  let required_columns := declaredCols rules sheet
  let missing := required_columns.filter (fun c => !(df.cols.contains c))
  let present := required_columns.filter (fun c => df.cols.contains c)
  if present.isEmpty then
    { cols := df.cols, index := [], rows := [], missingAttr := missing }
  else
    { cols := present, index := df.index,
      rows := df.rows.map (fun row => present.map (fun c => colVal df.cols row c)),
      missingAttr := missing }

/-- A guarded marking pass over a column's (label, value) pairs, writing one
fixed Error Kind at each cell whose guard holds; the common shape of every
per-cell loop in find_validation_errors. -/
def markCells (m : ErrMap) (l : List (Int × Value)) (g : Int × Value → Bool) (c : String) (kind : String) : ErrMap :=
  l.foldl (fun m2 p => if g p then emSet m2 (p.1, c) kind else m2) m

/-- The Datatype dispatch of find_validation_errors over the clean subset. -/
def typeCheck (m : ErrMap) (clean : List (Int × Value)) (c : String) (expected : String) : ErrMap :=
  if expected == "year" then
    markCells m clean (fun p => yearBad (pyStr p.2)) c "invalid_year"
  else if expected == "int" || expected == "integer" then
    markCells m clean (fun p => (parsePyFloat (pyStr p.2)).isNone) c "invalid_integer"
  else if expected == "float" || expected == "number" || expected == "numeric" then
    markCells m clean (fun p => (parsePyFloat (pyStr p.2)).isNone) c "invalid_float"
  else if expected == "bool" || expected == "boolean" then
    markCells m clean (fun p => boolBad p.2) c "invalid_boolean"
  else m

/-- The body of find_validation_errors' per-rule loop: skip absent columns,
then run the required/empty check, the blank-indicator check, and the type
check on the clean subset. -/
def processRule (data_sheet : DataFrame) (m : ErrMap) (r : RuleRow) : ErrMap :=
  let c := r.column
  if !(data_sheet.cols.contains c) then m
  else
    let idxcol := cellsOf data_sheet c
    let expected := pyLower (pyStr r.datatype)
    let m1 := if pyTruthy r.required then
        markCells m idxcol (fun p => isEmptyCell p.2) c "empty_required"
      else m
    let m2 := if !(pyTruthy r.allowBrokenRefs) then
        markCells m1 idxcol (fun p => isBlankCell p.2) c "blank_indicator"
      else m1
    let clean := idxcol.filter (fun p => cleanMask p.2)
    if clean.isEmpty then m2 else typeCheck m2 clean c expected

/-- find_validation_errors of validator.py: missing-column pseudo-errors from
the attached `missing_required` list, then the per-rule cell checks. -/
def find_validation_errors (data_sheet : DataFrame) (rules : RulesFrame) (sheet : String) : ErrMap :=
  let m0 := data_sheet.missingAttr.foldl (fun m c => emSet m (-1, c) "missing_column") []
  (rulesFor rules sheet).foldl (processRule data_sheet) m0

/-- Counter increment with dict insertion order (`counts.get(k, 0) + 1`). -/
def bump (m : List (String × Nat)) (k : String) : List (String × Nat) :=
  match m with
  | [] => [(k, 1)]
  | (k2, n) :: t => if k2 == k then (k2, n + 1) :: t else (k2, n) :: bump t k

/-- summarize_errors of styling.py: frequency of each Error Kind. -/
def summarize_errors (errs : ErrMap) : List (String × Nat) :=
  errs.foldl (fun m kv => bump m kv.2) []

/-- Counter addition by an arbitrary amount (`overall.get(k, 0) + c`). -/
def bumpBy (m : List (String × Nat)) (k : String) (n : Nat) : List (String × Nat) :=
  match m with
  | [] => [(k, n)]
  | (k2, n2) :: t => if k2 == k then (k2, n2 + n) :: t else (k2, n2) :: bumpBy t k n

/-- Folding one sheet's counts into the running overall counts. -/
def addCounts (m counts : List (String × Nat)) : List (String × Nat) :=
  counts.foldl (fun acc p => bumpBy acc p.1 p.2) m

/-- Count lookup with default 0. -/
def lookupCount (m : List (String × Nat)) (k : String) : Nat :=
  match m with
  | [] => 0
  | (k2, n) :: t => if k2 == k then n else lookupCount t k

/-- First-occurrence deduplication (pandas drop_duplicates keep-first),
tracking already seen elements. -/
def dedupFirstAux [DecidableEq α] (seen : List α) : List α → List α
  | [] => []
  | x :: xs => if x ∈ seen then dedupFirstAux seen xs else x :: dedupFirstAux (x :: seen) xs

/-- pandas drop_duplicates with keep-first semantics (NaN compares equal to
NaN there, as `Value.null = Value.null` does here). -/
def dedupFirst [DecidableEq α] (l : List α) : List α := dedupFirstAux [] l

/-- A Validation Plan Entry: Sheet (stringified) and raw TableName cell. -/
abbrev PlanEntry := String × Value

/-- The (Sheet, TableName) pair of one catalog row; TableName defaults to the
null cell when the catalog has no TableName column (`plan_df["TableName"] = None`). -/
def pairOf (hasTN : Bool) (r : RuleRow) : Value × Value :=
  (r.sheet, if hasTN then r.tableName else Value.null)

/-- The plan rows before deduplication: catalog order, rows with a null Sheet
dropped (`dropna(subset=["Sheet"])`), Sheet stringified (`astype(str)`). -/
def planSource (vs : RulesFrame) : List PlanEntry :=
  ((vs.rows.map (pairOf vs.hasTableName)).filter (fun p => !(isna p.1))).map
    (fun p => (pyStr p.1, p.2))

/-- build_validation_plan of workflow.py. -/
def build_validation_plan (vs : RulesFrame) : List PlanEntry :=
  if vs.hasSheet then dedupFirst (planSource vs) else []

/-- Position of the first occurrence of an element (length if absent). -/
def firstIdx [DecidableEq α] (l : List α) (a : α) : Nat :=
  match l with
  | [] => 0
  | x :: xs => if x = a then 0 else firstIdx xs a + 1

/-- A Sheet Result as returned by the orchestration layer (the html field,
pure presentation per the spec, is not part of the engine contract and is
omitted). -/
structure SheetResult where
  sheet : String
  tableName : Option Value
  error : Option String
  counts : List (String × Nat)
  missingRequired : List String
deriving DecidableEq, Repr

/-- Whether a character list begins with a pattern. -/
def listStartsWith (l p : List Char) : Bool :=
  match l, p with
  | _, [] => true
  | [], _ :: _ => false
  | a :: as2, b :: bs => a == b && listStartsWith as2 bs

/-- Whether a character list has the pattern as a contiguous sublist. -/
def listContainsSub (p : List Char) : List Char → Bool
  | [] => listStartsWith [] p
  | a :: t => listStartsWith (a :: t) p || listContainsSub p t

/-- Python substring containment `pat in msg`. -/
def containsSub (hay pat : String) : Bool := listContainsSub pat.data hay.data

/-- The failure-classification of validate_all's except branch: a single
synthetic count keyed by the recognised message marker, else no counts. -/
def classifyCounts (msg : String) : List (String × Nat) :=
  if containsSub msg "SHEET_NOT_FOUND:" then [("sheet_not_found", 1)]
  else if containsSub msg "TABLE_NOT_FOUND:" then [("table_not_found", 1)]
  else []

/-- The external Data Retrieval capability (load_excel_data): given the sheet
name and optional table name, a Dataset or a classified failure message. -/
abbrev Loader := String → Option Value → Except String DataFrame

/-- The table argument actually passed to the loader:
`table_name if table_name else None` (Python truthiness). -/
def loadArg (t : Option Value) : Option Value :=
  match t with
  | none => none
  | some v => if pyTruthy v then some v else none

/-- validate_one_sheet of workflow.py: load, select columns, find errors,
summarize; a load failure re-raises with the original message. -/
def validate_one_sheet (load : Loader) (validation_sheet : RulesFrame) (sheet : String)
    (table_name : Option Value) : Except String SheetResult :=
  match load sheet (loadArg table_name) with
  | .error e => .error e
  | .ok df_loaded =>
    let df_for_validation := select_validation_columns df_loaded validation_sheet sheet
    let error_cells := find_validation_errors df_for_validation validation_sheet sheet
    .ok { sheet := sheet, tableName := table_name, error := none,
          counts := summarize_errors error_cells,
          missingRequired := df_for_validation.missingAttr }

/-- `table = None if pd.isna(table) else table` on a plan row. -/
def entryTable (e : PlanEntry) : Option Value :=
  if isna e.2 then none else some e.2

/-- The Sheet Result produced for one plan entry by validate_all's loop body:
the validated result, or the synthetic failure result built in the except
branch (error message, classified counts, empty missing list). -/
def entryResult (load : Loader) (vs : RulesFrame) (e : PlanEntry) : SheetResult :=
  let t := entryTable e
  match validate_one_sheet load vs e.1 t with
  | .ok r => r
  | .error msg =>
    { sheet := e.1, tableName := t, error := some msg,
      counts := classifyCounts msg, missingRequired := [] }

/-- The optional progress capability; its result is discarded by the
orchestrator (`except Exception: pass`). -/
abbrev ProgressCB := Nat → Nat → String → SheetResult → Except String Unit

/-- A Run Result, together with the trace of progress-callback invocations
(argument tuples, in call order). -/
structure RunOutcome where
  overallCounts : List (String × Nat)
  perSheet : List SheetResult
  progressTrace : List (Nat × Nat × String × SheetResult)
deriving Repr

/-- The loop of validate_all over the remaining plan entries, carrying the
1-based index, the fixed total, and the running overall counts; the callback
outcome is computed and discarded. -/
def runLoop (load : Loader) (vs : RulesFrame) (cb : Option ProgressCB) :
    List PlanEntry → Nat → Nat → List (String × Nat) → RunOutcome
  | [], _, _, ov => ⟨ov, [], []⟩
  | e :: rest, idx, total, ov =>
    let r := entryResult load vs e
    let ov2 := addCounts ov r.counts
    let out := runLoop load vs cb rest (idx + 1) total ov2
    match cb with
    | some f =>
      let _ignored := f idx total e.1 r
      ⟨out.overallCounts, r :: out.perSheet, (idx, total, e.1, r) :: out.progressTrace⟩
    | none => ⟨out.overallCounts, r :: out.perSheet, out.progressTrace⟩

/-- validate_all of workflow.py, over a given plan (built by
build_validation_plan when the caller omits it). -/
def validate_all (load : Loader) (vs : RulesFrame) (plan : List PlanEntry)
    (cb : Option ProgressCB) : RunOutcome :=
  runLoop load vs cb plan 1 plan.length []

/-- The four type-error kinds. -/
def typeKinds : List String := ["invalid_year", "invalid_integer", "invalid_float", "invalid_boolean"]

/-- What a binding of the Error Map may legitimately say about the frame it was
computed from: a missing-column pseudo-error at the sentinel row, an
empty-required error at a truly empty cell, a blank-indicator error at a
placeholder cell, or a type error at a clean cell. -/
def GoodEntry (df : DataFrame) (k : ErrKey) (kind : String) : Prop :=
  (kind = "missing_column" ∧ k.1 = -1 ∧ k.2 ∈ df.missingAttr) ∨
  (kind = "empty_required" ∧ ∃ v, (k.1, v) ∈ cellsOf df k.2 ∧ isEmptyCell v = true) ∨
  (kind = "blank_indicator" ∧ ∃ v, (k.1, v) ∈ cellsOf df k.2 ∧ isBlankCell v = true) ∨
  (kind ∈ typeKinds ∧ ∃ v, (k.1, v) ∈ cellsOf df k.2 ∧ cleanMask v = true)

/-- Dataset for the C2 witness: one required no-blanks column with a null
cell and a placeholder cell. -/
def dfC2W : DataFrame := ⟨["A"], [0, 1], [[Value.null], [Value.str "N/A"]], []⟩

/-- Rule catalog for the C2 witness. -/
def vsC2W : RulesFrame := ⟨true, false,
  [⟨Value.str "S", Value.null, "A", Value.str "text", Value.bool true, Value.bool false⟩]⟩

/-- Rule catalog for the C3 witness: a catalog lacking its Sheet column. -/
def vsC3W : RulesFrame := ⟨false, true,
  [⟨Value.str "A", Value.str "T", "c", Value.str "text", Value.bool true, Value.bool true⟩]⟩

/-- Dataset for the C5 counterexample and witness: columns A then B. -/
def dfC5X : DataFrame := ⟨["A", "B"], [0], [[Value.int 1, Value.int 2]], []⟩

/-- Rule catalog for C5: declares B, then A, then the absent column Z. -/
def vsC5X : RulesFrame := ⟨true, false,
  [⟨Value.str "S", Value.null, "B", Value.str "text", Value.bool false, Value.bool true⟩,
   ⟨Value.str "S", Value.null, "A", Value.str "text", Value.bool false, Value.bool true⟩,
   ⟨Value.str "S", Value.null, "Z", Value.str "text", Value.bool false, Value.bool true⟩]⟩

/-- Dataset for the C10 witness: no column named A. -/
def dfC10W : DataFrame := ⟨["X"], [0], [[Value.int 5]], []⟩

/-- Rule catalog for the C10 witness: column A declared with Required false. -/
def vsC10W : RulesFrame := ⟨true, false,
  [⟨Value.str "S", Value.null, "A", Value.str "text", Value.bool false, Value.bool true⟩]⟩

/-- Dataset for the C6 witness: a year column with values 1899, 1900, 2101. -/
def dfC6W : DataFrame :=
  ⟨["Y"], [0, 1, 2], [[Value.int 1899], [Value.int 1900], [Value.int 2101]], []⟩

/-- Rule catalog for the C6 witness. -/
def vsC6W : RulesFrame := ⟨true, false,
  [⟨Value.str "S", Value.null, "Y", Value.str "year", Value.bool false, Value.bool true⟩]⟩

/-- Dataset for the C7 witness: a bool column with "Y", "maybe", and a native
boolean cell. -/
def dfC7W : DataFrame :=
  ⟨["B"], [0, 1, 2], [[Value.str "Y"], [Value.str "maybe"], [Value.bool true]], []⟩

/-- Rule catalog for the C7 witness. -/
def vsC7W : RulesFrame := ⟨true, false,
  [⟨Value.str "S", Value.null, "B", Value.str "bool", Value.bool false, Value.bool true⟩]⟩

/-- Loader for the C1 witness: every retrieval fails with a classified
sheet-not-found message. -/
def loadC1W : Loader := fun _ _ => .error "SHEET_NOT_FOUND: Sheet A not found. Available: B"

/-- Rule catalog for the C1 witness. -/
def vsC1W : RulesFrame := ⟨true, false,
  [⟨Value.str "A", Value.null, "c", Value.str "text", Value.bool true, Value.bool true⟩]⟩

/-- Dataset for the C8 witness's sheet A: one required column with one empty
cell. -/
def dfC8W : DataFrame := ⟨["c"], [0], [[Value.null]], []⟩

/-- Loader for the C8 witness: sheet A loads, sheet B fails with a classified
table-not-found message. -/
def loadC8W : Loader := fun sheet _ =>
  if sheet = "A" then .ok dfC8W else .error "TABLE_NOT_FOUND: Table T not found in sheet B"

/-- Rule catalog for the C8 witness. -/
def vsC8W : RulesFrame := ⟨true, true,
  [⟨Value.str "A", Value.null, "c", Value.str "text", Value.bool true, Value.bool true⟩]⟩

/-- Plan for the C8 witness. -/
def planC8W : List PlanEntry := [("A", Value.null), ("B", Value.str "T")]

/-! Lemmas about the Python-dict model of the Error Map. -/

theorem emLookup_emSet (m : ErrMap) (k : ErrKey) (v : String) (k' : ErrKey) :
    emLookup (emSet m k v) k' = if k' = k then some v else emLookup m k' := by
  induction m with
  | nil =>
    by_cases h : k' = k
    · subst h; simp [emSet, emLookup]
    · simp only [emSet, emLookup]
      rw [if_neg (fun hh => h hh.symm), if_neg h]
  | cons p t ih =>
    obtain ⟨k2, v2⟩ := p
    by_cases h2 : k2 = k
    · subst h2
      by_cases h : k2 = k'
      · subst h; simp [emSet, emLookup]
      · simp [emSet, emLookup, h, Ne.symm h]
    · by_cases hk : k2 = k'
      · subst hk
        simp [emSet, emLookup, h2, ih, Ne.symm h2]
      · by_cases hkk : k' = k
        · subst hkk; simp [emSet, emLookup, h2, ih, hk]
        · simp [emSet, emLookup, h2, ih, hk, hkk]

theorem emKeys_emSet (m : ErrMap) (k : ErrKey) (v : String) :
    (emSet m k v).map Prod.fst =
      if k ∈ m.map Prod.fst then m.map Prod.fst else m.map Prod.fst ++ [k] := by
  induction m with
  | nil => simp [emSet]
  | cons p t ih =>
    obtain ⟨k2, v2⟩ := p
    by_cases h2 : k2 = k
    · subst h2; simp [emSet]
    · simp only [emSet, if_neg h2, List.map_cons, ih]
      by_cases h : k ∈ t.map Prod.fst
      · simp [h, Ne.symm h2]
      · simp [h, Ne.symm h2]

theorem nodupKeys_emSet (m : ErrMap) (k : ErrKey) (v : String)
    (h : (m.map Prod.fst).Nodup) : ((emSet m k v).map Prod.fst).Nodup := by
  rw [emKeys_emSet]
  by_cases hm : k ∈ m.map Prod.fst
  · simpa [hm] using h
  · simp [hm, List.nodup_append, h]

theorem emLookup_markCells (l : List (Int × Value)) (m : ErrMap) (g : Int × Value → Bool)
    (c : String) (kind : String) (i : Int) (c' : String) :
    emLookup (markCells m l g c kind) (i, c') =
      if c' = c ∧ l.any (fun p => p.1 == i && g p) = true then some kind
      else emLookup m (i, c') := by
  induction l generalizing m with
  | nil => simp [markCells]
  | cons p t ih =>
    have hstep : markCells m (p :: t) g c kind =
        markCells (if g p then emSet m (p.1, c) kind else m) t g c kind := rfl
    rw [hstep, ih]
    by_cases hc : c' = c
    · subst hc
      by_cases ht : t.any (fun p => p.1 == i && g p) = true
      · simp [ht, List.any_cons]
      · cases hg : g p with
        | true =>
          cases hi : (p.1 == i) with
          | true =>
            have hpi : p.1 = i := by simpa using hi
            simp [ht, hg, hi, List.any_cons, emLookup_emSet, hpi]
          | false =>
            have hpi : p.1 ≠ i := by simpa using hi
            have hik : (i, c') ≠ (p.1, c') := by
              intro hh
              exact hpi (congrArg Prod.fst hh).symm
            simp [ht, hg, hi, List.any_cons, emLookup_emSet, hik]
        | false =>
          simp [ht, hg, List.any_cons]
    · have hik : ∀ j : Int, (i, c') ≠ (j, c) := by
        intro j hh
        exact hc (congrArg Prod.snd hh)
      cases hg : g p with
      | true => simp [hc, hg, emLookup_emSet, hik]
      | false => simp [hc, hg]

theorem emLookup_missingFold (ms : List String) (m : ErrMap) (i : Int) (c : String) :
    emLookup (ms.foldl (fun m2 c2 => emSet m2 (-1, c2) "missing_column") m) (i, c) =
      if i = -1 ∧ c ∈ ms then some "missing_column" else emLookup m (i, c) := by
  induction ms generalizing m with
  | nil => simp
  | cons a t ih =>
    rw [List.foldl_cons, ih]
    by_cases hi : i = -1
    · subst hi
      by_cases ht : c ∈ t
      · simp [ht]
      · by_cases ha : c = a
        · subst ha; simp [ht, emLookup_emSet]
        · have hik : ((-1 : Int), c) ≠ ((-1 : Int), a) := by
            intro hh
            exact ha (congrArg Prod.snd hh)
          simp [ht, ha, emLookup_emSet, hik]
    · have hik : (i, c) ≠ ((-1 : Int), a) := by
        intro hh
        exact hi (congrArg Prod.fst hh)
      simp [hi, emLookup_emSet, hik]

theorem nodupKeys_markCells (l : List (Int × Value)) (m : ErrMap) (g : Int × Value → Bool)
    (c : String) (kind : String) (h : (m.map Prod.fst).Nodup) :
    ((markCells m l g c kind).map Prod.fst).Nodup := by
  induction l generalizing m with
  | nil => exact h
  | cons p t ih =>
    have hstep : markCells m (p :: t) g c kind =
        markCells (if g p then emSet m (p.1, c) kind else m) t g c kind := rfl
    rw [hstep]
    apply ih
    cases hg : g p with
    | true => simpa [hg] using nodupKeys_emSet m (p.1, c) kind h
    | false => simpa [hg] using h

theorem nodupKeys_typeCheck (m : ErrMap) (clean : List (Int × Value)) (c expected : String)
    (h : (m.map Prod.fst).Nodup) : ((typeCheck m clean c expected).map Prod.fst).Nodup := by
  unfold typeCheck
  split_ifs <;> first
    | exact nodupKeys_markCells _ _ _ _ _ h
    | exact h

theorem nodupKeys_processRule (df : DataFrame) (m : ErrMap) (r : RuleRow)
    (h : (m.map Prod.fst).Nodup) : ((processRule df m r).map Prod.fst).Nodup := by
  unfold processRule
  dsimp only
  split
  · exact h
  · split
    · split <;> split <;>
        first
          | exact h
          | exact nodupKeys_markCells _ _ _ _ _ h
          | exact nodupKeys_markCells _ _ _ _ _ (nodupKeys_markCells _ _ _ _ _ h)
    · apply nodupKeys_typeCheck
      split <;> split <;>
        first
          | exact h
          | exact nodupKeys_markCells _ _ _ _ _ h
          | exact nodupKeys_markCells _ _ _ _ _ (nodupKeys_markCells _ _ _ _ _ h)

theorem nodupKeys_missingFold (ms : List String) (m : ErrMap)
    (h : (m.map Prod.fst).Nodup) :
    ((ms.foldl (fun m2 c2 => emSet m2 (-1, c2) "missing_column") m).map Prod.fst).Nodup := by
  induction ms generalizing m with
  | nil => exact h
  | cons a t ih => exact ih _ (nodupKeys_emSet _ _ _ h)

theorem nodupKeys_find_validation_errors (data_sheet : DataFrame) (rules : RulesFrame)
    (sheet : String) :
    ((find_validation_errors data_sheet rules sheet).map Prod.fst).Nodup := by
  unfold find_validation_errors
  have h0 : ∀ (rs : List RuleRow) (m : ErrMap), (m.map Prod.fst).Nodup →
      ((rs.foldl (processRule data_sheet) m).map Prod.fst).Nodup := by
    intro rs
    induction rs with
    | nil => intro m h; exact h
    | cons a t ih => intro m h; exact ih _ (nodupKeys_processRule _ _ _ h)
  exact h0 _ _ (nodupKeys_missingFold _ _ (by simp))

theorem mem_zip_unique (idx : List Int) (col : List Value) (i : Int) (x y : Value)
    (hnd : idx.Nodup) (hx : (i, x) ∈ idx.zip col) (hy : (i, y) ∈ idx.zip col) : x = y := by
  induction idx generalizing col with
  | nil => simp at hx
  | cons a t ih =>
    cases col with
    | nil => simp at hx
    | cons b u =>
      simp only [List.zip_cons_cons, List.mem_cons] at hx hy
      rcases hx with hx | hx
      · rcases hy with hy | hy
        · rw [Prod.mk.injEq] at hx hy
          exact hx.2.trans hy.2.symm
        · exfalso
          rw [Prod.mk.injEq] at hx
          have hit : i ∈ t := (List.of_mem_zip hy).1
          rw [hx.1] at hit
          exact (List.nodup_cons.mp hnd).1 hit
      · rcases hy with hy | hy
        · exfalso
          rw [Prod.mk.injEq] at hy
          have hit : i ∈ t := (List.of_mem_zip hx).1
          rw [hy.1] at hit
          exact (List.nodup_cons.mp hnd).1 hit
        · exact ih u (List.nodup_cons.mp hnd).2 hx hy

/-! Disjointness of the three cell-level classes: truly empty cells, blank
indicator cells, and clean cells. -/

theorem isEmptyCell_not_blank (v : Value) (h : isEmptyCell v = true) : isBlankCell v = false := by
  cases v with
  | null => simp [isBlankCell, isna]
  | str s =>
    have hs : s = "" := by simpa [isEmptyCell, isna, eqEmptyStr] using h
    subst hs; decide
  | int n => simp [isEmptyCell, isna, eqEmptyStr] at h
  | bool b => simp [isEmptyCell, isna, eqEmptyStr] at h

theorem isEmptyCell_not_clean (v : Value) (h : isEmptyCell v = true) : cleanMask v = false := by
  cases hna : isna v <;> cases heq : eqEmptyStr v <;>
    simp_all [isEmptyCell, cleanMask]

theorem isBlankCell_not_clean (v : Value) (h : isBlankCell v = true) : cleanMask v = false := by
  cases hna : isna v <;>
    cases hco : blank_indicators.contains (pyStrip (pyStr v)) <;>
    simp_all [isBlankCell, cleanMask]

theorem isBlankCell_not_empty (v : Value) (h : isBlankCell v = true) : isEmptyCell v = false := by
  cases he : isEmptyCell v
  · rfl
  · rw [isEmptyCell_not_blank v he] at h
    exact absurd h (by simp)

theorem cleanMask_not_empty (v : Value) (h : cleanMask v = true) : isEmptyCell v = false := by
  cases he : isEmptyCell v
  · rfl
  · rw [isEmptyCell_not_clean v he] at h
    exact absurd h (by simp)

theorem cleanMask_not_blank (v : Value) (h : cleanMask v = true) : isBlankCell v = false := by
  cases hb : isBlankCell v
  · rfl
  · rw [isBlankCell_not_clean v hb] at h
    exact absurd h (by simp)

/-! Shape lemmas about the Column Selector. -/

theorem select_missingAttr (df : DataFrame) (rules : RulesFrame) (sheet : String) :
    (select_validation_columns df rules sheet).missingAttr =
      (declaredCols rules sheet).filter (fun c => !(df.cols.contains c)) := by
  unfold select_validation_columns
  dsimp only
  split <;> rfl

theorem select_index (df : DataFrame) (rules : RulesFrame) (sheet : String) :
    (select_validation_columns df rules sheet).index = df.index ∨
      (select_validation_columns df rules sheet).index = [] := by
  unfold select_validation_columns
  dsimp only
  split
  · right; rfl
  · left; rfl

theorem select_index_nodup (df : DataFrame) (rules : RulesFrame) (sheet : String)
    (h : df.index.Nodup) : (select_validation_columns df rules sheet).index.Nodup := by
  rcases select_index df rules sheet with he | he <;> rw [he]
  · exact h
  · exact List.nodup_nil

theorem select_cols_of_present (df : DataFrame) (rules : RulesFrame) (sheet : String)
    (hne : (declaredCols rules sheet).filter (fun c => df.cols.contains c) ≠ []) :
    (select_validation_columns df rules sheet).cols =
      (declaredCols rules sheet).filter (fun c => df.cols.contains c) := by
  unfold select_validation_columns
  dsimp only
  rw [if_neg (by simpa [List.isEmpty_iff] using hne)]

theorem select_cols_of_absent (df : DataFrame) (rules : RulesFrame) (sheet : String)
    (hab : (declaredCols rules sheet).filter (fun c => df.cols.contains c) = []) :
    (select_validation_columns df rules sheet).cols = df.cols ∧
      (select_validation_columns df rules sheet).rows = [] := by
  unfold select_validation_columns
  dsimp only
  rw [if_pos (by simpa [List.isEmpty_iff] using hab)]
  exact ⟨rfl, rfl⟩

/-! Provenance of Error Map entries: every binding the Cell Validator writes
belongs to exactly one class of cell, recorded relative to the validated
frame. -/

theorem good_markCells (df : DataFrame) (m : ErrMap) (l : List (Int × Value))
    (g : Int × Value → Bool) (c : String) (kind : String)
    (hl : ∀ p ∈ l, g p = true → GoodEntry df (p.1, c) kind)
    (hm : ∀ k κ, emLookup m k = some κ → GoodEntry df k κ) :
    ∀ k κ, emLookup (markCells m l g c kind) k = some κ → GoodEntry df k κ := by
  intro k κ hlk
  obtain ⟨i, c'⟩ := k
  rw [emLookup_markCells] at hlk
  by_cases hcond : c' = c ∧ l.any (fun p => p.1 == i && g p) = true
  · rw [if_pos hcond] at hlk
    have hκ : κ = kind := (Option.some.injEq .. ▸ hlk).symm
    obtain ⟨p, hp, hpg⟩ := List.any_eq_true.mp hcond.2
    have hpg2 : p.1 = i ∧ g p = true := by simpa using hpg
    have hpi : p.1 = i := hpg2.1
    have := hl p hp hpg2.2
    rw [hκ, hcond.1]
    rw [hpi] at this
    exact this
  · rw [if_neg hcond] at hlk
    exact hm _ _ hlk

theorem good_typeCheck (df : DataFrame) (m : ErrMap) (c : String) (expected : String)
    (hm : ∀ k κ, emLookup m k = some κ → GoodEntry df k κ) :
    ∀ k κ, emLookup (typeCheck m ((cellsOf df c).filter (fun p => cleanMask p.2)) c expected) k = some κ →
      GoodEntry df k κ := by
  have hstep : ∀ (g : Int × Value → Bool) (kind : String), kind ∈ typeKinds →
      ∀ k κ, emLookup (markCells m ((cellsOf df c).filter (fun p => cleanMask p.2)) g c kind) k = some κ →
        GoodEntry df k κ := by
    intro g kind hkind
    apply good_markCells
    · intro p hp hg
      obtain ⟨pm, pc⟩ := List.mem_filter.mp hp
      exact Or.inr (Or.inr (Or.inr ⟨hkind, p.2, by rw [Prod.mk.eta]; exact pm, pc⟩))
    · exact hm
  unfold typeCheck
  split_ifs
  · exact hstep _ _ (by simp [typeKinds])
  · exact hstep _ _ (by simp [typeKinds])
  · exact hstep _ _ (by simp [typeKinds])
  · exact hstep _ _ (by simp [typeKinds])
  · exact hm

theorem good_processRule (df : DataFrame) (m : ErrMap) (r : RuleRow)
    (hm : ∀ k κ, emLookup m k = some κ → GoodEntry df k κ) :
    ∀ k κ, emLookup (processRule df m r) k = some κ → GoodEntry df k κ := by
  have hEmpty : ∀ (m' : ErrMap), (∀ k κ, emLookup m' k = some κ → GoodEntry df k κ) →
      ∀ k κ, emLookup (if pyTruthy r.required then
          markCells m' (cellsOf df r.column) (fun p => isEmptyCell p.2) r.column "empty_required"
        else m') k = some κ → GoodEntry df k κ := by
    intro m' hm'
    split
    · apply good_markCells
      · intro p hp hg
        exact Or.inr (Or.inl ⟨rfl, p.2, by rw [Prod.mk.eta]; exact hp, hg⟩)
      · exact hm'
    · exact hm'
  have hBlank : ∀ (m' : ErrMap), (∀ k κ, emLookup m' k = some κ → GoodEntry df k κ) →
      ∀ k κ, emLookup (if !(pyTruthy r.allowBrokenRefs) then
          markCells m' (cellsOf df r.column) (fun p => isBlankCell p.2) r.column "blank_indicator"
        else m') k = some κ → GoodEntry df k κ := by
    intro m' hm'
    split
    · apply good_markCells
      · intro p hp hg
        exact Or.inr (Or.inr (Or.inl ⟨rfl, p.2, by rw [Prod.mk.eta]; exact hp, hg⟩))
      · exact hm'
    · exact hm'
  unfold processRule
  dsimp only
  split
  · exact hm
  · split
    · exact hBlank _ (hEmpty _ hm)
    · exact good_typeCheck df _ r.column _ (hBlank _ (hEmpty _ hm))

theorem good_find_validation_errors (df : DataFrame) (rules : RulesFrame) (s : String) :
    ∀ k κ, emLookup (find_validation_errors df rules s) k = some κ → GoodEntry df k κ := by
  unfold find_validation_errors
  have h0 : ∀ k κ, emLookup
      (df.missingAttr.foldl (fun m2 c2 => emSet m2 (-1, c2) "missing_column") []) k = some κ →
      GoodEntry df k κ := by
    intro k κ h
    obtain ⟨i, c⟩ := k
    rw [emLookup_missingFold] at h
    by_cases hc : i = -1 ∧ c ∈ df.missingAttr
    · rw [if_pos hc] at h
      have hκ : κ = "missing_column" := (Option.some.injEq .. ▸ h).symm
      exact Or.inl ⟨hκ, hc.1, hc.2⟩
    · rw [if_neg hc] at h
      simp [emLookup] at h
  have hfold : ∀ (rs : List RuleRow) (m : ErrMap),
      (∀ k κ, emLookup m k = some κ → GoodEntry df k κ) →
      ∀ k κ, emLookup (rs.foldl (processRule df) m) k = some κ → GoodEntry df k κ := by
    intro rs
    induction rs with
    | nil => intro m h; exact h
    | cons a t ih => intro m h; exact ih _ (good_processRule df m a h)
  exact hfold _ _ h0

/-- C2: In every Error Map produced by the Cell Validator (on the Column
Selector's subset of a Dataset with distinct row labels), each
(row, column) key maps to at most one Error Kind (the key list is
duplicate-free), and the kinds are class-consistent and mutually exclusive
per cell: `empty_required` only at truly null/empty cells (which are neither
blank-indicator nor clean), `blank_indicator` only at non-null placeholder
cells (neither empty nor clean), and a type error only at clean cells
(neither empty nor blank-indicator). -/
theorem cell_validator_kinds_disjoint (df : DataFrame) (rules : RulesFrame) (s : String)
    (hsheet : rules.hasSheet = true) (hnd : df.index.Nodup) :
    (((find_validation_errors (select_validation_columns df rules s) rules s).map Prod.fst).Nodup) ∧
    (∀ (i : Int) (c : String) (kind : String) (v : Value),
      emLookup (find_validation_errors (select_validation_columns df rules s) rules s) (i, c) = some kind →
      (i, v) ∈ cellsOf (select_validation_columns df rules s) c →
      ((kind = "empty_required" → isEmptyCell v = true ∧ isBlankCell v = false ∧ cleanMask v = false) ∧
       (kind = "blank_indicator" → isBlankCell v = true ∧ isEmptyCell v = false ∧ cleanMask v = false) ∧
       (kind ∈ typeKinds → cleanMask v = true ∧ isEmptyCell v = false ∧ isBlankCell v = false))) := by
  constructor
  · exact nodupKeys_find_validation_errors _ _ _
  · intro i c kind v hlk hmem
    have hgood := good_find_validation_errors (select_validation_columns df rules s) rules s (i, c) kind hlk
    have hsubnd : (select_validation_columns df rules s).index.Nodup := select_index_nodup df rules s hnd
    refine ⟨?_, ?_, ?_⟩
    · intro hk
      subst hk
      rcases hgood with ⟨hmc, _⟩ | ⟨_, v2, hv2, hv2e⟩ | ⟨hbk, _⟩ | ⟨htk, _⟩
      · exact absurd hmc (by decide)
      · have hv : v2 = v :=
          mem_zip_unique (select_validation_columns df rules s).index
            (getCol (select_validation_columns df rules s) c) i v2 v hsubnd hv2 hmem
        subst hv
        exact ⟨hv2e, isEmptyCell_not_blank _ hv2e, isEmptyCell_not_clean _ hv2e⟩
      · exact absurd hbk (by decide)
      · exact absurd htk (by decide)
    · intro hk
      subst hk
      rcases hgood with ⟨hmc, _⟩ | ⟨her, _⟩ | ⟨_, v2, hv2, hv2b⟩ | ⟨htk, _⟩
      · exact absurd hmc (by decide)
      · exact absurd her (by decide)
      · have hv : v2 = v :=
          mem_zip_unique (select_validation_columns df rules s).index
            (getCol (select_validation_columns df rules s) c) i v2 v hsubnd hv2 hmem
        subst hv
        exact ⟨hv2b, isBlankCell_not_empty _ hv2b, isBlankCell_not_clean _ hv2b⟩
      · exact absurd htk (by decide)
    · intro hk
      rcases hgood with ⟨hmc, _⟩ | ⟨her, _⟩ | ⟨hbk, _⟩ | ⟨_, v2, hv2, hv2c⟩
      · subst hmc; exact absurd hk (by decide)
      · subst her; exact absurd hk (by decide)
      · subst hbk; exact absurd hk (by decide)
      · have hv : v2 = v :=
          mem_zip_unique (select_validation_columns df rules s).index
            (getCol (select_validation_columns df rules s) c) i v2 v hsubnd hv2 hmem
        subst hv
        exact ⟨hv2c, cleanMask_not_empty _ hv2c, cleanMask_not_blank _ hv2c⟩

theorem cell_validator_kinds_disjoint_witness :
    (((find_validation_errors (select_validation_columns dfC2W vsC2W "S") vsC2W "S").map Prod.fst).Nodup) ∧
    (isEmptyCell Value.null = true ∧ isBlankCell Value.null = false ∧ cleanMask Value.null = false) ∧
    (isBlankCell (Value.str "N/A") = true ∧ isEmptyCell (Value.str "N/A") = false ∧
      cleanMask (Value.str "N/A") = false) :=
  ⟨(cell_validator_kinds_disjoint dfC2W vsC2W "S" rfl (by decide)).1,
   ((cell_validator_kinds_disjoint dfC2W vsC2W "S" rfl (by decide)).2 0 "A" "empty_required"
      Value.null (by decide) (by decide)).1 rfl,
   ((cell_validator_kinds_disjoint dfC2W vsC2W "S" rfl (by decide)).2 1 "A" "blank_indicator"
      (Value.str "N/A") (by decide) (by decide)).2.1 rfl⟩

theorem contains_iff_mem {l : List String} {a : String} : l.contains a = true ↔ a ∈ l := by
  simp

/-! Lemmas about keep-first deduplication and first-occurrence positions. -/

theorem mem_dedupFirstAux [DecidableEq α] (seen : List α) (l : List α) (a : α) :
    a ∈ dedupFirstAux seen l ↔ a ∈ l ∧ a ∉ seen := by
  induction l generalizing seen with
  | nil => simp [dedupFirstAux]
  | cons x xs ih =>
    by_cases hx : x ∈ seen
    · rw [dedupFirstAux, if_pos hx, ih]
      constructor
      · rintro ⟨h1, h2⟩
        exact ⟨List.mem_cons_of_mem _ h1, h2⟩
      · rintro ⟨h1, h2⟩
        rcases List.mem_cons.mp h1 with h | h
        · exact absurd (h ▸ hx) h2
        · exact ⟨h, h2⟩
    · rw [dedupFirstAux, if_neg hx]
      by_cases hax : a = x
      · subst hax
        simp [hx]
      · simp only [List.mem_cons, hax, false_or, ih (x :: seen)]

theorem nodup_dedupFirstAux [DecidableEq α] (seen : List α) (l : List α) :
    (dedupFirstAux seen l).Nodup := by
  induction l generalizing seen with
  | nil => simp [dedupFirstAux]
  | cons x xs ih =>
    by_cases hx : x ∈ seen
    · rw [dedupFirstAux, if_pos hx]
      exact ih seen
    · rw [dedupFirstAux, if_neg hx]
      refine List.nodup_cons.mpr ⟨?_, ih (x :: seen)⟩
      intro hmem
      exact ((mem_dedupFirstAux _ _ _).mp hmem).2 (List.mem_cons_self x seen)

theorem pairwise_lift_cons [DecidableEq α] (x : α) (xs : List α) (d : List α)
    (hne : ∀ a ∈ d, a ≠ x)
    (h : d.Pairwise (fun a b => firstIdx xs a < firstIdx xs b)) :
    d.Pairwise (fun a b => firstIdx (x :: xs) a < firstIdx (x :: xs) b) := by
  refine List.Pairwise.imp_of_mem ?_ h
  intro a b ha hb hab
  have h1 : firstIdx (x :: xs) a = firstIdx xs a + 1 := by
    simp only [firstIdx]
    rw [if_neg (fun hh => (hne a ha) hh.symm)]
  have h2 : firstIdx (x :: xs) b = firstIdx xs b + 1 := by
    simp only [firstIdx]
    rw [if_neg (fun hh => (hne b hb) hh.symm)]
  rw [h1, h2]
  exact Nat.succ_lt_succ hab

theorem pairwise_firstIdx_dedupFirstAux [DecidableEq α] (seen : List α) (l : List α) :
    (dedupFirstAux seen l).Pairwise (fun a b => firstIdx l a < firstIdx l b) := by
  induction l generalizing seen with
  | nil => simp [dedupFirstAux]
  | cons x xs ih =>
    by_cases hx : x ∈ seen
    · rw [dedupFirstAux, if_pos hx]
      refine pairwise_lift_cons x xs _ ?_ (ih seen)
      intro a ha hax
      exact ((mem_dedupFirstAux _ _ _).mp ha).2 (hax ▸ hx)
    · rw [dedupFirstAux, if_neg hx]
      refine List.pairwise_cons.mpr ⟨?_, ?_⟩
      · intro b hb
        have hbx : b ≠ x := fun hh =>
          ((mem_dedupFirstAux _ _ _).mp hb).2 (hh ▸ List.mem_cons_self x seen)
        simp only [firstIdx, if_true]
        rw [if_neg (fun hh => hbx hh.symm)]
        exact Nat.succ_pos _
      · refine pairwise_lift_cons x xs _ ?_ (ih (x :: seen))
        intro a ha hax
        exact ((mem_dedupFirstAux _ _ _).mp ha).2 (hax ▸ List.mem_cons_self x seen)

/-- C3: For every Rule Catalog, the Plan Builder's output has no duplicate
(Sheet, TableName) pairs, lists the pairs in strictly increasing order of
their first occurrence in the kept catalog rows (first-seen order), contains
exactly the kept pairs, and is empty (without raising) when the catalog
lacks a Sheet column. -/
theorem plan_builder_unique_first_seen (vs : RulesFrame) :
    (build_validation_plan vs).Nodup ∧
    (build_validation_plan vs).Pairwise
      (fun a b => firstIdx (planSource vs) a < firstIdx (planSource vs) b) ∧
    (vs.hasSheet = true → ∀ p, p ∈ build_validation_plan vs ↔ p ∈ planSource vs) ∧
    (vs.hasSheet = false → build_validation_plan vs = []) := by
  refine ⟨?_, ?_, ?_, ?_⟩
  · unfold build_validation_plan
    split
    · exact nodup_dedupFirstAux [] _
    · exact List.nodup_nil
  · unfold build_validation_plan
    split
    · exact pairwise_firstIdx_dedupFirstAux [] _
    · exact List.Pairwise.nil
  · intro h p
    unfold build_validation_plan
    rw [if_pos h, dedupFirst, mem_dedupFirstAux]
    simp
  · intro h
    unfold build_validation_plan
    rw [h]
    simp

theorem plan_builder_unique_first_seen_witness :
    (build_validation_plan vsC3W).Nodup ∧
    (build_validation_plan vsC3W).Pairwise
      (fun a b => firstIdx (planSource vsC3W) a < firstIdx (planSource vsC3W) b) ∧
    build_validation_plan vsC3W = [] :=
  ⟨(plan_builder_unique_first_seen vsC3W).1,
   (plan_builder_unique_first_seen vsC3W).2.1,
   (plan_builder_unique_first_seen vsC3W).2.2.2 rfl⟩

/-- C4 counterexample: a rule whose Sheet cell is the blank string is not
dropped by `dropna(subset=["Sheet"])` — it contributes a plan entry whose
Sheet is blank. -/
theorem plan_blank_sheet_kept_counterexample :
    build_validation_plan ⟨true, false,
      [⟨Value.str "", Value.null, "C", Value.str "text", Value.bool true, Value.bool true⟩]⟩ =
      [("", Value.null)] := by decide

theorem planSource_filter_null (hasTN : Bool) (rows : List RuleRow) :
    ((rows.filter (fun r => !(isna r.sheet))).map (pairOf hasTN)).filter (fun p => !(isna p.1)) =
      (rows.map (pairOf hasTN)).filter (fun p => !(isna p.1)) := by
  induction rows with
  | nil => rfl
  | cons r t ih =>
    cases hr : isna r.sheet with
    | true => simp [pairOf, hr, ih]
    | false => simp [pairOf, hr, ih]

/-- C4 (amended): a rule whose Sheet cell is absent (null/NaN) contributes no
plan entry — the plan is unchanged when all null-Sheet rows are removed from
the catalog; a rule whose Sheet is a blank string, however, is retained. -/
theorem plan_null_sheet_dropped (vs : RulesFrame) :
    build_validation_plan vs =
      build_validation_plan ⟨vs.hasSheet, vs.hasTableName,
        vs.rows.filter (fun r => !(isna r.sheet))⟩ := by
  unfold build_validation_plan planSource
  dsimp only
  rw [planSource_filter_null]

/-- C5 counterexample: the Validation Subset's columns come out in
rule-declaration order (["B", "A"]), not in their Dataset order, which for
this Dataset would be the projection ["A", "B"]. -/
theorem column_selector_order_counterexample :
    (select_validation_columns dfC5X vsC5X "S").cols = ["B", "A"] ∧
    dfC5X.cols.filter (fun c => (declaredCols vsC5X "S").contains c) = ["A", "B"] ∧
    (select_validation_columns dfC5X vsC5X "S").cols ≠
      dfC5X.cols.filter (fun c => (declaredCols vsC5X "S").contains c) := by
  refine ⟨by decide, by decide, by decide⟩

/-- C5 (amended): the Column Selector records in `missing` exactly the
declared-but-absent columns and never raises; the declared columns present in
the Dataset form the Subset's columns in rule-declaration order (not Dataset
order) whenever at least one is present; when none is present the Subset is a
zero-row copy of the Dataset that retains the Dataset's columns. -/
theorem column_selector_subset (df : DataFrame) (rules : RulesFrame) (s : String)
    (hsheet : rules.hasSheet = true) :
    (select_validation_columns df rules s).missingAttr =
      (declaredCols rules s).filter (fun c => !(df.cols.contains c)) ∧
    ((declaredCols rules s).filter (fun c => df.cols.contains c) ≠ [] →
      (select_validation_columns df rules s).cols =
        (declaredCols rules s).filter (fun c => df.cols.contains c)) ∧
    ((declaredCols rules s).filter (fun c => df.cols.contains c) = [] →
      (select_validation_columns df rules s).cols = df.cols ∧
      (select_validation_columns df rules s).rows = []) :=
  ⟨select_missingAttr df rules s,
   fun h => select_cols_of_present df rules s h,
   fun h => select_cols_of_absent df rules s h⟩

theorem column_selector_subset_witness :
    (select_validation_columns dfC5X vsC5X "S").missingAttr = ["Z"] ∧
    (select_validation_columns dfC5X vsC5X "S").cols = ["B", "A"] :=
  ⟨((column_selector_subset dfC5X vsC5X "S" rfl).1).trans (by decide),
   ((column_selector_subset dfC5X vsC5X "S" rfl).2.1 (by decide)).trans (by decide)⟩

/-! Preservation lemmas: a rule touching a different (or absent) column leaves
a key's binding unchanged. -/

theorem emLookup_processRule_pres (df : DataFrame) (m : ErrMap) (r' : RuleRow)
    (i : Int) (c : String) (hpres : r'.column = c → df.cols.contains c = false) :
    emLookup (processRule df m r') (i, c) = emLookup m (i, c) := by
  unfold processRule
  dsimp only
  split
  · rfl
  · rename_i hcont
    have hc2 : r'.column ≠ c := by
      intro he
      have hfalse := hpres he
      rw [he, hfalse] at hcont
      exact hcont rfl
    have hmark : ∀ (m' : ErrMap) (l : List (Int × Value)) (g : Int × Value → Bool) (kind : String),
        emLookup (markCells m' l g r'.column kind) (i, c) = emLookup m' (i, c) := by
      intro m' l g kind
      rw [emLookup_markCells]
      rw [if_neg (fun hcc => hc2 hcc.1.symm)]
    have htc : ∀ (m' : ErrMap) (clean : List (Int × Value)) (expected : String),
        emLookup (typeCheck m' clean r'.column expected) (i, c) = emLookup m' (i, c) := by
      intro m' clean expected
      unfold typeCheck
      split_ifs <;> first | rw [hmark] | rfl
    split
    · split <;> split <;> simp [hmark]
    · rw [htc]
      split <;> split <;> simp [hmark]

theorem emLookup_foldRules_pres (df : DataFrame) (rs : List RuleRow) (m : ErrMap)
    (i : Int) (c : String)
    (hpres : ∀ r' ∈ rs, r'.column = c → df.cols.contains c = false) :
    emLookup (rs.foldl (processRule df) m) (i, c) = emLookup m (i, c) := by
  induction rs generalizing m with
  | nil => rfl
  | cons a t ih =>
    rw [List.foldl_cons, ih _ (fun r' hr' => hpres r' (List.mem_cons_of_mem _ hr')),
      emLookup_processRule_pres df m a i c (hpres a (List.mem_cons_self a t))]

/-- C10: For every rule declared for the target sheet whose Column is absent
from the Dataset, the pipeline of Column Selector and Cell Validator emits
the pseudo-error (-1, column) → missing_column, with no condition on the
rule's Required flag (the statement holds for any `required` cell value). -/
theorem missing_column_regardless_of_required (df : DataFrame) (rules : RulesFrame)
    (s : String) (r : RuleRow)
    (hsheet : rules.hasSheet = true)
    (hr : r ∈ rulesFor rules s)
    (habs : df.cols.contains r.column = false) :
    emLookup (find_validation_errors (select_validation_columns df rules s) rules s)
      (-1, r.column) = some "missing_column" := by
  have hdecl : r.column ∈ declaredCols rules s := List.mem_map_of_mem _ hr
  have hmiss : r.column ∈ (select_validation_columns df rules s).missingAttr := by
    rw [select_missingAttr]
    exact List.mem_filter.mpr ⟨hdecl, by simpa using habs⟩
  have hsubcols : (select_validation_columns df rules s).cols.contains r.column = false := by
    by_cases hpr : (declaredCols rules s).filter (fun c => df.cols.contains c) = []
    · rw [(select_cols_of_absent df rules s hpr).1]
      exact habs
    · rw [select_cols_of_present df rules s hpr]
      cases hcon : ((declaredCols rules s).filter (fun c => df.cols.contains c)).contains r.column with
      | false => rfl
      | true =>
        have hm := contains_iff_mem.mp hcon
        have hc2 := (List.mem_filter.mp hm).2
        rw [habs] at hc2
        exact absurd hc2 (by simp)
  unfold find_validation_errors
  rw [emLookup_foldRules_pres _ _ _ _ _ (fun r' _ _ => hsubcols)]
  rw [emLookup_missingFold]
  rw [if_pos ⟨rfl, hmiss⟩]

theorem missing_column_regardless_of_required_witness :
    emLookup (find_validation_errors (select_validation_columns dfC10W vsC10W "S") vsC10W "S")
      (-1, "A") = some "missing_column" :=
  missing_column_regardless_of_required dfC10W vsC10W "S"
    ⟨Value.str "S", Value.null, "A", Value.str "text", Value.bool false, Value.bool true⟩
    rfl (by decide) (by decide)

theorem emLookup_processRule_present_clean (df2 : DataFrame) (m : ErrMap) (r : RuleRow)
    (i : Int) (v : Value)
    (hnd : df2.index.Nodup)
    (hcont : df2.cols.contains r.column = true)
    (hmem : (i, v) ∈ cellsOf df2 r.column)
    (hclean : cleanMask v = true)
    (hbase : emLookup m (i, r.column) = none) :
    emLookup (processRule df2 m r) (i, r.column) =
      emLookup (typeCheck [] [(i, v)] r.column (pyLower (pyStr r.datatype))) (i, r.column) := by
  have hany_gen : ∀ (l : List (Int × Value)) (g : Int × Value → Bool),
      (∀ p ∈ l, p ∈ cellsOf df2 r.column) → (i, v) ∈ l →
      l.any (fun p => p.1 == i && g p) = g (i, v) := by
    intro l g hsub hlv
    cases h2 : l.any (fun p => p.1 == i && g p) with
    | true =>
      obtain ⟨p, hp, hpg⟩ := List.any_eq_true.mp h2
      have hpg2 : p.1 = i ∧ g p = true := by simpa using hpg
      have hpmem : (i, p.2) ∈ cellsOf df2 r.column := by
        rw [← hpg2.1, Prod.mk.eta]
        exact hsub p hp
      have hpv : p.2 = v :=
        mem_zip_unique df2.index (getCol df2 r.column) i p.2 v hnd hpmem hmem
      have hgv : g (i, v) = true := by
        rw [← hpv, ← hpg2.1, Prod.mk.eta]
        exact hpg2.2
      exact hgv.symm
    | false =>
      cases hg : g (i, v) with
      | false => rfl
      | true =>
        have hh : l.any (fun p => p.1 == i && g p) = true :=
          List.any_eq_true.mpr ⟨(i, v), hlv, by simp [hg]⟩
        rw [h2] at hh
        exact hh
  have hmemclean : (i, v) ∈ (cellsOf df2 r.column).filter (fun p => cleanMask p.2) :=
    List.mem_filter.mpr ⟨hmem, hclean⟩
  have hcleanne : ((cellsOf df2 r.column).filter (fun p => cleanMask p.2)).isEmpty = false := by
    rw [← Bool.not_eq_true, List.isEmpty_iff]
    exact List.ne_nil_of_mem hmemclean
  have hm1 : ∀ (mm : ErrMap), emLookup mm (i, r.column) = none →
      emLookup (if pyTruthy r.required then
        markCells mm (cellsOf df2 r.column) (fun p => isEmptyCell p.2) r.column "empty_required"
      else mm) (i, r.column) = none := by
    intro mm hmm
    split
    · rw [emLookup_markCells]
      rw [if_neg ?_]
      · exact hmm
      · rintro ⟨_, h2⟩
        rw [hany_gen _ _ (fun p hp => hp) hmem] at h2
        rw [cleanMask_not_empty v hclean] at h2
        exact absurd h2 (by simp)
    · exact hmm
  have hm2 : ∀ (mm : ErrMap), emLookup mm (i, r.column) = none →
      emLookup (if !(pyTruthy r.allowBrokenRefs) then
        markCells mm (cellsOf df2 r.column) (fun p => isBlankCell p.2) r.column "blank_indicator"
      else mm) (i, r.column) = none := by
    intro mm hmm
    split
    · rw [emLookup_markCells]
      rw [if_neg ?_]
      · exact hmm
      · rintro ⟨_, h2⟩
        rw [hany_gen _ _ (fun p hp => hp) hmem] at h2
        rw [cleanMask_not_blank v hclean] at h2
        exact absurd h2 (by simp)
    · exact hmm
  have htc : ∀ (mm : ErrMap), emLookup mm (i, r.column) = none →
      emLookup (typeCheck mm ((cellsOf df2 r.column).filter (fun p => cleanMask p.2))
        r.column (pyLower (pyStr r.datatype))) (i, r.column) =
      emLookup (typeCheck [] [(i, v)] r.column (pyLower (pyStr r.datatype))) (i, r.column) := by
    intro mm hmm
    have hbr : ∀ (g : Int × Value → Bool) (K : String),
        emLookup (markCells mm ((cellsOf df2 r.column).filter (fun p => cleanMask p.2)) g
          r.column K) (i, r.column) =
        emLookup (markCells [] [(i, v)] g r.column K) (i, r.column) := by
      intro g K
      rw [emLookup_markCells, emLookup_markCells]
      have h1 : ((cellsOf df2 r.column).filter (fun p => cleanMask p.2)).any
          (fun p => p.1 == i && g p) = g (i, v) :=
        hany_gen _ g (fun p hp => (List.mem_filter.mp hp).1) hmemclean
      have h2 : ([(i, v)].any (fun p => p.1 == i && g p)) = g (i, v) := by simp
      rw [h1, h2]
      cases hg : g (i, v) with
      | true => simp
      | false => simp [hmm, emLookup]
    unfold typeCheck
    split_ifs <;> first | exact hbr _ _ | exact hmm
  unfold processRule
  dsimp only
  rw [if_neg (by rw [hcont]; simp)]
  rw [if_neg (by rw [hcleanne]; simp)]
  exact htc _ (hm2 _ (hm1 _ hbase))

theorem emLookup_find_clean (df : DataFrame) (rules : RulesFrame) (s : String) (r : RuleRow)
    (hnd : df.index.Nodup)
    (hcols : (declaredCols rules s).Nodup)
    (hr : r ∈ rulesFor rules s)
    (hpres : df.cols.contains r.column = true)
    (i : Int) (v : Value)
    (hmem : (i, v) ∈ cellsOf (select_validation_columns df rules s) r.column)
    (hclean : cleanMask v = true) :
    emLookup (find_validation_errors (select_validation_columns df rules s) rules s) (i, r.column) =
      emLookup (typeCheck [] [(i, v)] r.column (pyLower (pyStr r.datatype))) (i, r.column) := by
  obtain ⟨l1, l2, hsplit⟩ := List.append_of_mem hr
  have hsubnd := select_index_nodup df rules s hnd
  have hcdecl : r.column ∈ declaredCols rules s := List.mem_map_of_mem _ hr
  have hcpres : r.column ∈ (declaredCols rules s).filter (fun c => df.cols.contains c) :=
    List.mem_filter.mpr ⟨hcdecl, hpres⟩
  have hprne : (declaredCols rules s).filter (fun c => df.cols.contains c) ≠ [] :=
    List.ne_nil_of_mem hcpres
  have hsubcols : (select_validation_columns df rules s).cols.contains r.column = true := by
    rw [select_cols_of_present df rules s hprne]
    exact contains_iff_mem.mpr hcpres
  have hcols2 : (l1.map (fun r2 => r2.column) ++
      r.column :: l2.map (fun r2 => r2.column)).Nodup := by
    have hdec : declaredCols rules s = l1.map (fun r2 => r2.column) ++
        r.column :: l2.map (fun r2 => r2.column) := by
      rw [declaredCols, hsplit, List.map_append, List.map_cons]
    rw [← hdec]
    exact hcols
  have hno1 : ∀ r' ∈ l1, r'.column ≠ r.column := by
    intro r' h1 he
    exact (List.nodup_append.mp hcols2).2.2 (he ▸ List.mem_map_of_mem _ h1)
      (List.mem_cons_self _ _)
  have hno2 : ∀ r' ∈ l2, r'.column ≠ r.column := by
    intro r' h2 he
    exact (List.nodup_cons.mp (List.nodup_append.mp hcols2).2.1).1
      (he ▸ List.mem_map_of_mem _ h2)
  unfold find_validation_errors
  rw [hsplit, List.foldl_append, List.foldl_cons]
  rw [emLookup_foldRules_pres _ l2 _ _ _ (fun r' h2 he => absurd he (hno2 r' h2))]
  have hbase : emLookup (l1.foldl (processRule (select_validation_columns df rules s))
      ((select_validation_columns df rules s).missingAttr.foldl
        (fun m2 c2 => emSet m2 (-1, c2) "missing_column") [])) (i, r.column) = none := by
    rw [emLookup_foldRules_pres _ l1 _ _ _ (fun r' h1 he => absurd he (hno1 r' h1))]
    rw [emLookup_missingFold]
    rw [if_neg ?_]
    · rfl
    · rintro ⟨_, hcm⟩
      rw [select_missingAttr] at hcm
      have hh := (List.mem_filter.mp hcm).2
      rw [hpres] at hh
      exact absurd hh (by simp)
  exact emLookup_processRule_present_clean _ _ r i v hsubnd hsubcols hmem hclean hbase

theorem yearBad_iff (s : String) :
    yearBad s = true ↔ (parsePyFloat s = none ∨
      ∃ q, parsePyFloat s = some q ∧ (ratTrunc q < 1900 ∨ 2100 < ratTrunc q)) := by
  unfold yearBad
  cases hp : parsePyFloat s with
  | none => simp [hp]
  | some q =>
    simp only [hp]
    by_cases h1 : 1900 ≤ ratTrunc q ∧ ratTrunc q ≤ 2100
    · rw [if_pos h1]
      constructor
      · intro h
        exact absurd h (by simp)
      · rintro (h | ⟨q2, hq2, hlt⟩)
        · exact absurd h (by simp)
        · have hqq : q = q2 := by
            have := (Option.some.injEq q q2).mp hq2
            exact this
          subst hqq
          rcases hlt with h | h <;> omega
    · rw [if_neg h1]
      constructor
      · intro _
        right
        refine ⟨q, rfl, by omega⟩
      · intro _
        rfl

/-- C6: For every clean cell of a column whose rule has Datatype `year` (in a
catalog with distinct declared columns per sheet and a Dataset with distinct
row labels), the pipeline flags the cell `invalid_year` if and only if its
Python string form is not parseable as a number or its truncated integer
value lies outside [1900, 2100]. -/
theorem year_type_check (df : DataFrame) (rules : RulesFrame) (s : String) (r : RuleRow)
    (hsheet : rules.hasSheet = true)
    (hnd : df.index.Nodup)
    (hcols : (declaredCols rules s).Nodup)
    (hr : r ∈ rulesFor rules s)
    (hpres : df.cols.contains r.column = true)
    (hdt : pyLower (pyStr r.datatype) = "year")
    (i : Int) (v : Value)
    (hmem : (i, v) ∈ cellsOf (select_validation_columns df rules s) r.column)
    (hclean : cleanMask v = true) :
    emLookup (find_validation_errors (select_validation_columns df rules s) rules s)
        (i, r.column) = some "invalid_year" ↔
      (parsePyFloat (pyStr v) = none ∨
        ∃ q, parsePyFloat (pyStr v) = some q ∧ (ratTrunc q < 1900 ∨ 2100 < ratTrunc q)) := by
  rw [emLookup_find_clean df rules s r hnd hcols hr hpres i v hmem hclean, hdt]
  have hcomp : emLookup (typeCheck [] [(i, v)] r.column "year") (i, r.column) =
      (if yearBad (pyStr v) = true then some "invalid_year" else none) := by
    unfold typeCheck
    rw [if_pos (by decide)]
    simp only [markCells, List.foldl_cons, List.foldl_nil]
    cases hyb : yearBad (pyStr v) with
    | true => simp [hyb, emSet, emLookup]
    | false => simp [hyb, emLookup]
  rw [hcomp]
  by_cases hyb : yearBad (pyStr v) = true
  · rw [if_pos hyb]
    constructor
    · intro _
      exact (yearBad_iff _).mp hyb
    · intro _
      rfl
  · rw [if_neg hyb]
    constructor
    · intro h
      exact absurd h (by simp)
    · intro h
      exact absurd ((yearBad_iff _).mpr h) hyb

theorem year_type_check_witness :
    emLookup (find_validation_errors (select_validation_columns dfC6W vsC6W "S") vsC6W "S")
        (0, "Y") = some "invalid_year" ∧
    emLookup (find_validation_errors (select_validation_columns dfC6W vsC6W "S") vsC6W "S")
        (1, "Y") = none ∧
    emLookup (find_validation_errors (select_validation_columns dfC6W vsC6W "S") vsC6W "S")
        (2, "Y") = some "invalid_year" :=
  ⟨(year_type_check dfC6W vsC6W "S"
      ⟨Value.str "S", Value.null, "Y", Value.str "year", Value.bool false, Value.bool true⟩
      rfl (by decide) (by decide) (by decide) (by decide) (by decide)
      0 (Value.int 1899) (by decide) (by decide)).mpr
      (Or.inr ⟨⟨1899, 1⟩, by decide, Or.inl (by decide)⟩),
   by decide,
   (year_type_check dfC6W vsC6W "S"
      ⟨Value.str "S", Value.null, "Y", Value.str "year", Value.bool false, Value.bool true⟩
      rfl (by decide) (by decide) (by decide) (by decide) (by decide)
      2 (Value.int 2101) (by decide) (by decide)).mpr
      (Or.inr ⟨⟨2101, 1⟩, by decide, Or.inr (by decide)⟩)⟩

theorem boolBad_eq_of_not_bool (v : Value) (h : ∀ b, v ≠ Value.bool b) :
    boolBad v = !(valid_boolean_values.contains (pyStrip (pyStr v))) := by
  cases v with
  | bool b => exact absurd rfl (h b)
  | null => rfl
  | str s => rfl
  | int n => rfl

/-- C7: For every clean cell of a column whose rule has Datatype `bool` or
`boolean` (distinct declared columns per sheet, distinct row labels), a
natively boolean-typed cell is never flagged, and any other cell is flagged
`invalid_boolean` exactly when its stripped Python string form is outside
the fixed case-sensitive truthy/falsy vocabulary. -/
theorem bool_type_check (df : DataFrame) (rules : RulesFrame) (s : String) (r : RuleRow)
    (hsheet : rules.hasSheet = true)
    (hnd : df.index.Nodup)
    (hcols : (declaredCols rules s).Nodup)
    (hr : r ∈ rulesFor rules s)
    (hpres : df.cols.contains r.column = true)
    (hdt : pyLower (pyStr r.datatype) = "bool" ∨ pyLower (pyStr r.datatype) = "boolean")
    (i : Int) (v : Value)
    (hmem : (i, v) ∈ cellsOf (select_validation_columns df rules s) r.column)
    (hclean : cleanMask v = true) :
    (∀ b, v = Value.bool b →
      emLookup (find_validation_errors (select_validation_columns df rules s) rules s)
        (i, r.column) = none) ∧
    ((∀ b, v ≠ Value.bool b) →
      (emLookup (find_validation_errors (select_validation_columns df rules s) rules s)
          (i, r.column) = some "invalid_boolean" ↔
        valid_boolean_values.contains (pyStrip (pyStr v)) = false)) := by
  have hmaster := emLookup_find_clean df rules s r hnd hcols hr hpres i v hmem hclean
  have hcomp : emLookup (typeCheck [] [(i, v)] r.column (pyLower (pyStr r.datatype)))
      (i, r.column) = (if boolBad v = true then some "invalid_boolean" else none) := by
    rcases hdt with hdt | hdt <;>
    · rw [hdt]
      unfold typeCheck
      rw [if_neg (by decide), if_neg (by decide), if_neg (by decide), if_pos (by decide)]
      simp only [markCells, List.foldl_cons, List.foldl_nil]
      cases hbb : boolBad v with
      | true => simp [hbb, emSet, emLookup]
      | false => simp [hbb, emLookup]
  rw [hmaster, hcomp]
  constructor
  · intro b hb
    subst hb
    rw [if_neg (by simp [boolBad])]
  · intro hnb
    rw [boolBad_eq_of_not_bool v hnb]
    cases hco : valid_boolean_values.contains (pyStrip (pyStr v)) with
    | true =>
      rw [if_neg (by simp [hco])]
      constructor
      · intro h
        exact absurd h (by simp)
      · intro h
        exact absurd h (by simp [hco])
    | false =>
      rw [if_pos (by simp [hco])]
      constructor
      · intro _
        rfl
      · intro _
        rfl

theorem bool_type_check_witness :
    emLookup (find_validation_errors (select_validation_columns dfC7W vsC7W "S") vsC7W "S")
        (0, "B") = none ∧
    emLookup (find_validation_errors (select_validation_columns dfC7W vsC7W "S") vsC7W "S")
        (1, "B") = some "invalid_boolean" ∧
    emLookup (find_validation_errors (select_validation_columns dfC7W vsC7W "S") vsC7W "S")
        (2, "B") = none :=
  ⟨by decide,
   ((bool_type_check dfC7W vsC7W "S"
      ⟨Value.str "S", Value.null, "B", Value.str "bool", Value.bool false, Value.bool true⟩
      rfl (by decide) (by decide) (by decide) (by decide) (Or.inl (by decide))
      1 (Value.str "maybe") (by decide) (by decide)).2
        (fun b h => Value.noConfusion h)).mpr (by decide),
   (bool_type_check dfC7W vsC7W "S"
      ⟨Value.str "S", Value.null, "B", Value.str "bool", Value.bool false, Value.bool true⟩
      rfl (by decide) (by decide) (by decide) (by decide) (Or.inl (by decide))
      2 (Value.bool true) (by decide) (by decide)).1 true rfl⟩

/-! Lemmas about counters and the run loop. -/

theorem lookupCount_zero_of_not_mem (m : List (String × Nat)) (k : String)
    (h : k ∉ m.map Prod.fst) : lookupCount m k = 0 := by
  induction m with
  | nil => rfl
  | cons p t ih =>
    obtain ⟨k2, n2⟩ := p
    simp only [List.map_cons, List.mem_cons] at h
    have h1 : ¬(k2 == k) = true := by
      simp only [beq_iff_eq]
      intro hh
      exact h (Or.inl hh.symm)
    simp only [lookupCount, if_neg h1]
    exact ih (fun hh => h (Or.inr hh))

theorem lookupCount_bumpBy (m : List (String × Nat)) (k : String) (n : Nat) (k' : String) :
    lookupCount (bumpBy m k n) k' = lookupCount m k' + (if k' = k then n else 0) := by
  induction m with
  | nil =>
    by_cases h : k' = k
    · subst h; simp [bumpBy, lookupCount]
    · simp [bumpBy, lookupCount, beq_iff_eq, h, Ne.symm h]
  | cons p t ih =>
    obtain ⟨k2, n2⟩ := p
    by_cases h2 : k2 = k
    · subst h2
      by_cases h : k' = k2
      · subst h; simp [bumpBy, lookupCount]
      · simp [bumpBy, lookupCount, beq_iff_eq, h, Ne.symm h]
    · by_cases h : k2 = k'
      · subst h
        simp [bumpBy, lookupCount, beq_iff_eq, h2, Ne.symm h2, ih]
      · simp [bumpBy, lookupCount, beq_iff_eq, h2, h, ih]

theorem lookupCount_addCounts : ∀ (c m : List (String × Nat)) (k : String),
    (c.map Prod.fst).Nodup →
    lookupCount (addCounts m c) k = lookupCount m k + lookupCount c k := by
  intro c
  induction c with
  | nil => intro m k _; simp [addCounts, lookupCount]
  | cons p t ih =>
    intro m k hnd
    obtain ⟨k0, n0⟩ := p
    have hnd2 : (t.map Prod.fst).Nodup := (List.nodup_cons.mp hnd).2
    have hk0 : k0 ∉ t.map Prod.fst := (List.nodup_cons.mp hnd).1
    have hstep : addCounts m ((k0, n0) :: t) = addCounts (bumpBy m k0 n0) t := rfl
    rw [hstep, ih _ k hnd2, lookupCount_bumpBy]
    by_cases hk : k = k0
    · subst hk
      rw [lookupCount_zero_of_not_mem t k hk0]
      simp [lookupCount]
    · simp [lookupCount, beq_iff_eq, Ne.symm hk, hk]

theorem keys_bump (m : List (String × Nat)) (k : String) :
    (bump m k).map Prod.fst =
      if k ∈ m.map Prod.fst then m.map Prod.fst else m.map Prod.fst ++ [k] := by
  induction m with
  | nil => simp [bump]
  | cons p t ih =>
    obtain ⟨k2, n2⟩ := p
    by_cases h2 : k2 = k
    · subst h2; simp [bump]
    · have hb : ¬(k2 == k) = true := by simp [beq_iff_eq, h2]
      simp only [bump, if_neg hb, List.map_cons, ih]
      by_cases h : k ∈ t.map Prod.fst
      · simp [h, Ne.symm h2]
      · simp [h, Ne.symm h2]

theorem nodupKeys_bump (m : List (String × Nat)) (k : String)
    (h : (m.map Prod.fst).Nodup) : ((bump m k).map Prod.fst).Nodup := by
  rw [keys_bump]
  by_cases hm : k ∈ m.map Prod.fst
  · simpa [hm] using h
  · simp [hm, List.nodup_append, h]

theorem nodupKeys_summarize (errs : ErrMap) :
    ((summarize_errors errs).map Prod.fst).Nodup := by
  unfold summarize_errors
  have h0 : ∀ (l : List (ErrKey × String)) (m : List (String × Nat)),
      (m.map Prod.fst).Nodup →
      ((l.foldl (fun m2 kv => bump m2 kv.2) m).map Prod.fst).Nodup := by
    intro l
    induction l with
    | nil => intro m h; exact h
    | cons a t ih => intro m h; exact ih _ (nodupKeys_bump _ _ h)
  exact h0 _ _ (by simp)

theorem nodupKeys_entryResult_counts (load : Loader) (vs : RulesFrame) (e : PlanEntry) :
    ((entryResult load vs e).counts.map Prod.fst).Nodup := by
  unfold entryResult validate_one_sheet
  dsimp only
  cases hload : load e.1 (loadArg (entryTable e)) with
  | error msg =>
    show ((classifyCounts msg).map Prod.fst).Nodup
    unfold classifyCounts
    split_ifs <;> simp
  | ok dfL =>
    exact nodupKeys_summarize _

theorem runLoop_perSheet (load : Loader) (vs : RulesFrame) (cb : Option ProgressCB) :
    ∀ (entries : List PlanEntry) (idx total : Nat) (ov : List (String × Nat)),
    (runLoop load vs cb entries idx total ov).perSheet = entries.map (entryResult load vs) := by
  intro entries
  induction entries with
  | nil => intro idx total ov; cases cb <;> rfl
  | cons e rest ih =>
    intro idx total ov
    cases cb with
    | none => simp [runLoop, ih]
    | some f => simp [runLoop, ih]

theorem runLoop_overall (load : Loader) (vs : RulesFrame) (cb : Option ProgressCB) :
    ∀ (entries : List PlanEntry) (idx total : Nat) (ov : List (String × Nat)) (k : String),
    lookupCount (runLoop load vs cb entries idx total ov).overallCounts k =
      lookupCount ov k +
        ((entries.map (fun e => lookupCount (entryResult load vs e).counts k)).sum) := by
  intro entries
  induction entries with
  | nil => intro idx total ov k; cases cb <;> simp [runLoop]
  | cons e rest ih =>
    intro idx total ov k
    have hstep : (runLoop load vs cb (e :: rest) idx total ov).overallCounts =
        (runLoop load vs cb rest (idx + 1) total
          (addCounts ov (entryResult load vs e).counts)).overallCounts := by
      cases cb <;> rfl
    rw [hstep, ih, lookupCount_addCounts _ _ _ (nodupKeys_entryResult_counts load vs e)]
    simp [Nat.add_assoc]

theorem runLoop_trace (load : Loader) (vs : RulesFrame) (f : ProgressCB) :
    ∀ (entries : List PlanEntry) (idx total : Nat) (ov : List (String × Nat)),
    (runLoop load vs (some f) entries idx total ov).progressTrace.map (fun t => t.1) =
        List.range' idx entries.length ∧
    (runLoop load vs (some f) entries idx total ov).progressTrace.map (fun t => t.2.1) =
        List.replicate entries.length total ∧
    (runLoop load vs (some f) entries idx total ov).progressTrace.map (fun t => t.2.2.1) =
        entries.map (fun e => e.1) := by
  intro entries
  induction entries with
  | nil => intro idx total ov; exact ⟨rfl, rfl, rfl⟩
  | cons e rest ih =>
    intro idx total ov
    have hstep : (runLoop load vs (some f) (e :: rest) idx total ov).progressTrace =
        (idx, total, e.1, entryResult load vs e) ::
          (runLoop load vs (some f) rest (idx + 1) total
            (addCounts ov (entryResult load vs e).counts)).progressTrace := rfl
    refine ⟨?_, ?_, ?_⟩
    · rw [hstep, List.map_cons, (ih _ _ _).1, List.length_cons, List.range'_succ]
    · rw [hstep, List.map_cons, (ih _ _ _).2.1, List.length_cons, List.replicate_succ]
    · rw [hstep, List.map_cons, (ih _ _ _).2.2, List.map_cons]

theorem runLoop_cb_irrelevant (load : Loader) (vs : RulesFrame) (cb1 cb2 : Option ProgressCB) :
    ∀ (entries : List PlanEntry) (idx total : Nat) (ov : List (String × Nat)),
    (runLoop load vs cb1 entries idx total ov).overallCounts =
        (runLoop load vs cb2 entries idx total ov).overallCounts ∧
    (runLoop load vs cb1 entries idx total ov).perSheet =
        (runLoop load vs cb2 entries idx total ov).perSheet := by
  intro entries
  induction entries with
  | nil => intro idx total ov; cases cb1 <;> cases cb2 <;> exact ⟨rfl, rfl⟩
  | cons e rest ih =>
    intro idx total ov
    have h1 : ∀ (cb : Option ProgressCB),
        (runLoop load vs cb (e :: rest) idx total ov).overallCounts =
          (runLoop load vs cb rest (idx + 1) total
            (addCounts ov (entryResult load vs e).counts)).overallCounts := by
      intro cb; cases cb <;> rfl
    have h2 : ∀ (cb : Option ProgressCB),
        (runLoop load vs cb (e :: rest) idx total ov).perSheet =
          entryResult load vs e ::
            (runLoop load vs cb rest (idx + 1) total
              (addCounts ov (entryResult load vs e).counts)).perSheet := by
      intro cb; cases cb <;> rfl
    rw [h1 cb1, h1 cb2, h2 cb1, h2 cb2, (ih _ _ _).1, (ih _ _ _).2]
    exact ⟨rfl, rfl⟩

/-- C1: A plan entry whose data retrieval fails never raises past the
orchestration boundary: the run still returns, that entry's Sheet Result
carries the failure message in `error`, counts with exactly one synthetic
entry (`sheet_not_found` if the message carries `SHEET_NOT_FOUND:`, else
`table_not_found` if it carries `TABLE_NOT_FOUND:`, else no counts), and an
empty `missingRequired`; every other plan entry is still processed (one
result per entry, in plan order). -/
theorem sheet_failure_isolated (load : Loader) (vs : RulesFrame) (plan : List PlanEntry)
    (cb : Option ProgressCB) (j : Nat) (e : PlanEntry) (msg : String)
    (hj : plan[j]? = some e)
    (hload : load e.1 (loadArg (entryTable e)) = .error msg) :
    (validate_all load vs plan cb).perSheet[j]? = some
      { sheet := e.1, tableName := entryTable e, error := some msg,
        counts := if containsSub msg "SHEET_NOT_FOUND:" then [("sheet_not_found", 1)]
          else if containsSub msg "TABLE_NOT_FOUND:" then [("table_not_found", 1)]
          else [],
        missingRequired := [] } ∧
    (validate_all load vs plan cb).perSheet.length = plan.length := by
  have hps : (validate_all load vs plan cb).perSheet = plan.map (entryResult load vs) :=
    runLoop_perSheet load vs cb plan 1 plan.length []
  constructor
  · rw [hps, List.getElem?_map, hj]
    have hentry : entryResult load vs e =
        { sheet := e.1, tableName := entryTable e, error := some msg,
          counts := if containsSub msg "SHEET_NOT_FOUND:" then [("sheet_not_found", 1)]
            else if containsSub msg "TABLE_NOT_FOUND:" then [("table_not_found", 1)]
            else [],
          missingRequired := [] } := by
      unfold entryResult validate_one_sheet
      dsimp only
      rw [hload]
      rfl
    rw [Option.map_some', hentry]
  · rw [hps, List.length_map]

theorem sheet_failure_isolated_witness :
    (validate_all loadC1W vsC1W [("A", Value.null)] none).perSheet[0]? = some
      { sheet := "A", tableName := none,
        error := some "SHEET_NOT_FOUND: Sheet A not found. Available: B",
        counts := if containsSub "SHEET_NOT_FOUND: Sheet A not found. Available: B"
            "SHEET_NOT_FOUND:" then [("sheet_not_found", 1)]
          else if containsSub "SHEET_NOT_FOUND: Sheet A not found. Available: B"
            "TABLE_NOT_FOUND:" then [("table_not_found", 1)]
          else [],
        missingRequired := [] } ∧
    (validate_all loadC1W vsC1W [("A", Value.null)] none).perSheet.length = 1 :=
  sheet_failure_isolated loadC1W vsC1W [("A", Value.null)] none 0 ("A", Value.null)
    "SHEET_NOT_FOUND: Sheet A not found. Available: B" rfl rfl

/-- C8: For every plan and loader, the Run Orchestrator returns a full Run
Result: one Sheet Result per plan entry in plan order (the per-sheet list has
exactly the plan's length and its j-th element is the j-th entry's result),
and `overallCounts` maps each Error Kind to the sum of that kind's counts
over all Sheet Results — even when every sheet fails to load, since this
holds for every loader. -/
theorem run_orchestrator_full_result (load : Loader) (vs : RulesFrame)
    (plan : List PlanEntry) (cb : Option ProgressCB) :
    (validate_all load vs plan cb).perSheet.length = plan.length ∧
    (∀ (j : Nat) (e : PlanEntry), plan[j]? = some e →
      (validate_all load vs plan cb).perSheet[j]? = some (entryResult load vs e)) ∧
    (∀ kind, lookupCount (validate_all load vs plan cb).overallCounts kind =
      ((validate_all load vs plan cb).perSheet.map
        (fun r => lookupCount r.counts kind)).sum) := by
  have hps : (validate_all load vs plan cb).perSheet = plan.map (entryResult load vs) :=
    runLoop_perSheet load vs cb plan 1 plan.length []
  refine ⟨?_, ?_, ?_⟩
  · rw [hps, List.length_map]
  · intro j e hj
    rw [hps, List.getElem?_map, hj, Option.map_some']
  · intro kind
    have hov := runLoop_overall load vs cb plan 1 plan.length [] kind
    rw [hps, List.map_map]
    unfold validate_all
    rw [hov]
    simp only [lookupCount, Nat.zero_add]
    rfl

theorem run_orchestrator_full_result_witness :
    (validate_all loadC8W vsC8W planC8W none).perSheet.length = 2 ∧
    (validate_all loadC8W vsC8W planC8W none).perSheet[1]? =
      some (entryResult loadC8W vsC8W ("B", Value.str "T")) ∧
    lookupCount (validate_all loadC8W vsC8W planC8W none).overallCounts "table_not_found" =
      ((validate_all loadC8W vsC8W planC8W none).perSheet.map
        (fun r => lookupCount r.counts "table_not_found")).sum :=
  ⟨(run_orchestrator_full_result loadC8W vsC8W planC8W none).1,
   (run_orchestrator_full_result loadC8W vsC8W planC8W none).2.1 1 ("B", Value.str "T") rfl,
   (run_orchestrator_full_result loadC8W vsC8W planC8W none).2.2 "table_not_found"⟩

/-- C9: When a progress callback is supplied it is invoked exactly once per
plan entry, in order, with index running 1..total (strictly increasing),
total fixed at the plan length and the entry's sheet name — regardless of
sheet failures (any loader); and the callback's outcome (including a raised
exception, modelled by its Except result being discarded) never changes the
run's overall counts or per-sheet results: they equal those of a run with any
other callback or none. -/
theorem progress_callback_contract (load : Loader) (vs : RulesFrame)
    (plan : List PlanEntry) (f g : ProgressCB) :
    (validate_all load vs plan (some f)).progressTrace.length = plan.length ∧
    (validate_all load vs plan (some f)).progressTrace.map (fun t => t.1) =
      List.range' 1 plan.length ∧
    (validate_all load vs plan (some f)).progressTrace.map (fun t => t.2.1) =
      List.replicate plan.length plan.length ∧
    (validate_all load vs plan (some f)).progressTrace.map (fun t => t.2.2.1) =
      plan.map (fun e => e.1) ∧
    (validate_all load vs plan (some f)).overallCounts =
      (validate_all load vs plan (some g)).overallCounts ∧
    (validate_all load vs plan (some f)).perSheet =
      (validate_all load vs plan (some g)).perSheet ∧
    (validate_all load vs plan (some f)).overallCounts =
      (validate_all load vs plan none).overallCounts ∧
    (validate_all load vs plan (some f)).perSheet =
      (validate_all load vs plan none).perSheet := by
  have htr := runLoop_trace load vs f plan 1 plan.length []
  have hlen : (validate_all load vs plan (some f)).progressTrace.length = plan.length := by
    have := congrArg List.length htr.1
    rwa [List.length_map, List.length_range'] at this
  exact ⟨hlen, htr.1, htr.2.1, htr.2.2,
    (runLoop_cb_irrelevant load vs (some f) (some g) plan 1 plan.length []).1,
    (runLoop_cb_irrelevant load vs (some f) (some g) plan 1 plan.length []).2,
    (runLoop_cb_irrelevant load vs (some f) none plan 1 plan.length []).1,
    (runLoop_cb_irrelevant load vs (some f) none plan 1 plan.length []).2⟩
